import Mathlib

/-!
Verification of the LineArt automation raster pipeline: the eraser pixel
engine (`src/app/api/apply-eraser/route.ts`), the placement/clipping and
compositing geometry (`src/app/api/composite/route.ts`,
`src/app/api/export-full/route.ts`), the size/bleed export finalizer
(`src/app/api/export/route.ts`) and the size lookup tables
(`src/types/index.ts`).

Numbers that are JavaScript floats in the source are embedded as rationals
(`ℚ`); `Math.round` is `round : ℚ → ℤ` (both are floor of `x + 1/2`).
Rasters are embedded as functions from coordinates to pixels.
-/

namespace LineArt

/-- One RGBA pixel (byte channels). -/
structure Pixel where
  r : ℕ
  g : ℕ
  b : ℕ
  a : ℕ
deriving DecidableEq, Repr

/-- The opaque white pixel the eraser writes: RGBA (255,255,255,255). -/
def white : Pixel := ⟨255, 255, 255, 255⟩

/-- The line-art overlay at its native resolution: `width`/`height` from the
image metadata, `data` the raw RGBA grid. -/
structure OverlayRaster where
  width : ℕ
  height : ℕ
  data : ℕ → ℕ → Pixel

/-- The inputs of the apply-eraser route: canvas dimensions, the native
dimensions of the line art (read from the overlay's metadata), and the
placement rectangle (`lineArtTop`, `lineArtLeft`, `lineArtWidth`,
`lineArtHeight`) sent by the client. -/
structure EraserParams where
  canvasWidth : ℕ
  canvasHeight : ℕ
  originalWidth : ℕ
  originalHeight : ℕ
  lineArtTop : ℚ
  lineArtLeft : ℚ
  lineArtWidth : ℚ
  lineArtHeight : ℚ

/-- Code: `const actualLineArtAspect = originalWidth / originalHeight`. -/
def actualLineArtAspect (p : EraserParams) : ℚ :=
  (p.originalWidth : ℚ) / (p.originalHeight : ℚ)

/-- Code: `const actualLineArtWidth = lineArtHeight * actualLineArtAspect`. -/
def actualLineArtWidth (p : EraserParams) : ℚ :=
  p.lineArtHeight * actualLineArtAspect p

/-- Code: `const widthDifference = assumedWidth - actualLineArtWidth` where
`assumedWidth = lineArtWidth`. -/
def widthDifference (p : EraserParams) : ℚ :=
  p.lineArtWidth - actualLineArtWidth p

/-- Code: `const actualLineArtLeft = lineArtLeft + (widthDifference / 2)`. -/
def actualLineArtLeft (p : EraserParams) : ℚ :=
  p.lineArtLeft + widthDifference p / 2

/-- Code: `const scaleX = originalWidth / actualLineArtWidth`. -/
def scaleX (p : EraserParams) : ℚ :=
  (p.originalWidth : ℚ) / actualLineArtWidth p

/-- Code: `const scaleY = originalHeight / lineArtHeight`. -/
def scaleY (p : EraserParams) : ℚ :=
  (p.originalHeight : ℚ) / p.lineArtHeight

/-- Code: `const relativeX = canvasX - actualLineArtLeft`. -/
def relativeX (p : EraserParams) (cx : ℕ) : ℚ :=
  (cx : ℚ) - actualLineArtLeft p

/-- Code: `const relativeY = canvasY - lineArtTop`. -/
def relativeY (p : EraserParams) (cy : ℕ) : ℚ :=
  (cy : ℚ) - p.lineArtTop

/-- Code: `const origX = Math.round(relativeX * scaleX)`. -/
def origX (p : EraserParams) (cx : ℕ) : ℤ :=
  round (relativeX p cx * scaleX p)

/-- Code: `const origY = Math.round(relativeY * scaleY)`. -/
def origY (p : EraserParams) (cy : ℕ) : ℤ :=
  round (relativeY p cy * scaleY p)

/-- The bounds check `relativeX >= 0 && relativeX < actualLineArtWidth &&
relativeY >= 0 && relativeY < lineArtHeight`: the canvas pixel lies inside
the aspect-corrected placement rectangle. -/
def inPlacementRect (p : EraserParams) (cx cy : ℕ) : Prop :=
  0 ≤ relativeX p cx ∧ relativeX p cx < actualLineArtWidth p ∧
  0 ≤ relativeY p cy ∧ relativeY p cy < p.lineArtHeight

/-- The bounds check `origX >= 0 && origX < originalWidth && origY >= 0 &&
origY < originalHeight`: the mapped source pixel is inside the native
raster. -/
def inNativeBounds (p : EraserParams) (cx cy : ℕ) : Prop :=
  0 ≤ origX p cx ∧ origX p cx < (p.originalWidth : ℤ) ∧
  0 ≤ origY p cy ∧ origY p cy < (p.originalHeight : ℤ)

/-- The full guard of the loop body at canvas pixel `(cx, cy)`: the mask's
red channel is at least 50 (`if (red < 50) continue`), the pixel lies in the
corrected line-art rectangle, and the mapped source pixel is within native
bounds. -/
def eraseCond (p : EraserParams) (mask : ℕ → ℕ → ℕ) (cx cy : ℕ) : Prop :=
  50 ≤ mask cx cy ∧ inPlacementRect p cx cy ∧ inNativeBounds p cx cy

instance (p : EraserParams) (mask : ℕ → ℕ → ℕ) (cx cy : ℕ) :
    Decidable (eraseCond p mask cx cy) := by
  unfold eraseCond inPlacementRect inNativeBounds
  infer_instance

/-- One iteration of the eraser loop body: if the guard holds, the source
pixel `(origX, origY)` is set to opaque white; otherwise the raster is left
untouched. -/
def eraseStep (p : EraserParams) (mask : ℕ → ℕ → ℕ)
    (st : ℕ → ℕ → Pixel) (c : ℕ × ℕ) : ℕ → ℕ → Pixel :=
  if eraseCond p mask c.1 c.2 then
    fun x y => if (x : ℤ) = origX p c.1 ∧ (y : ℤ) = origY p c.2 then white else st x y
  else st

/-- The canvas pixels visited by the double loop
`for (canvasY...) for (canvasX...)`, in loop order. -/
def canvasPixels (w h : ℕ) : List (ℕ × ℕ) :=
  (List.range h).flatMap fun cy => (List.range w).map fun cx => (cx, cy)

/-- The eraser double loop over the whole canvas, threading the mutable
line-art buffer through each iteration. -/
def applyEraserData (p : EraserParams) (mask : ℕ → ℕ → ℕ)
    (st : ℕ → ℕ → Pixel) : ℕ → ℕ → Pixel :=
  (canvasPixels p.canvasWidth p.canvasHeight).foldl (eraseStep p mask) st

/-- Source pixel `(x, y)` is targeted by some visited canvas pixel that
passes the loop guard. -/
def erased (p : EraserParams) (mask : ℕ → ℕ → ℕ) (x y : ℕ) : Prop :=
  ∃ cx < p.canvasWidth, ∃ cy < p.canvasHeight,
    eraseCond p mask cx cy ∧ (x : ℤ) = origX p cx ∧ (y : ℤ) = origY p cy

instance (p : EraserParams) (mask : ℕ → ℕ → ℕ) (x y : ℕ) :
    Decidable (erased p mask x y) := by
  unfold erased
  infer_instance

lemma mem_canvasPixels {w h : ℕ} {c : ℕ × ℕ} :
    c ∈ canvasPixels w h ↔ c.1 < w ∧ c.2 < h := by
  obtain ⟨cx, cy⟩ := c
  simp only [canvasPixels, List.mem_flatMap, List.mem_map, List.mem_range,
    Prod.mk.injEq]
  constructor
  · rintro ⟨b, hb, a, ha, h1, h2⟩
    exact ⟨h1 ▸ ha, h2 ▸ hb⟩
  · rintro ⟨h1, h2⟩
    exact ⟨cy, h2, cx, h1, rfl, rfl⟩

lemma foldl_eraseStep (p : EraserParams) (mask : ℕ → ℕ → ℕ)
    (ps : List (ℕ × ℕ)) (st : ℕ → ℕ → Pixel) (x y : ℕ) :
    (ps.foldl (eraseStep p mask) st) x y =
      if ∃ c ∈ ps, eraseCond p mask c.1 c.2 ∧
          (x : ℤ) = origX p c.1 ∧ (y : ℤ) = origY p c.2
      then white else st x y := by
  induction ps generalizing st with
  | nil => simp
  | cons c cs ih =>
    rw [List.foldl_cons, ih]
    by_cases hcs : ∃ c' ∈ cs, eraseCond p mask c'.1 c'.2 ∧
        (x : ℤ) = origX p c'.1 ∧ (y : ℤ) = origY p c'.2
    · rw [if_pos hcs, if_pos]
      obtain ⟨c', hc', h'⟩ := hcs
      exact ⟨c', List.mem_cons_of_mem _ hc', h'⟩
    · rw [if_neg hcs]
      by_cases hc : eraseCond p mask c.1 c.2
      · by_cases hxy : (x : ℤ) = origX p c.1 ∧ (y : ℤ) = origY p c.2
        · rw [if_pos ⟨c, List.mem_cons_self _ _, hc, hxy⟩]
          simp [eraseStep, hc, hxy]
        · rw [if_neg]
          · simp [eraseStep, hc, hxy]
          · rintro ⟨c', hc', h'⟩
            rcases List.mem_cons.mp hc' with rfl | hmem
            · exact hxy ⟨h'.2.1, h'.2.2⟩
            · exact hcs ⟨c', hmem, h'⟩
      · rw [if_neg]
        · simp [eraseStep, hc]
        · rintro ⟨c', hc', h'⟩
          rcases List.mem_cons.mp hc' with rfl | hmem
          · exact hc h'.1
          · exact hcs ⟨c', hmem, h'⟩

/-- Pointwise characterization of the eraser loop: a source pixel is white
exactly when some passing canvas pixel maps to it, otherwise untouched. -/
lemma applyEraserData_eq (p : EraserParams) (mask : ℕ → ℕ → ℕ)
    (st : ℕ → ℕ → Pixel) (x y : ℕ) :
    applyEraserData p mask st x y =
      if erased p mask x y then white else st x y := by
  rw [applyEraserData, foldl_eraseStep]
  refine if_congr ?_ rfl rfl
  constructor
  · rintro ⟨c, hc, h⟩
    exact ⟨c.1, (mem_canvasPixels.mp hc).1, c.2, (mem_canvasPixels.mp hc).2, h⟩
  · rintro ⟨cx, hcx, cy, hcy, h⟩
    exact ⟨(cx, cy), mem_canvasPixels.mpr ⟨hcx, hcy⟩, h⟩

/-- The eraser parameters assembled by the route: canvas size and placement
from the request, native dimensions from the overlay image's metadata. -/
def mkEraserParams (canvasWidth canvasHeight : ℕ)
    (lineArtTop lineArtLeft lineArtWidth lineArtHeight : ℚ)
    (o : OverlayRaster) : EraserParams :=
  ⟨canvasWidth, canvasHeight, o.width, o.height,
    lineArtTop, lineArtLeft, lineArtWidth, lineArtHeight⟩

/-- The whole route on an overlay raster: the pixel data is rewritten by the
loop and the result re-encoded at the unchanged native dimensions. -/
def applyEraser (canvasWidth canvasHeight : ℕ)
    (lineArtTop lineArtLeft lineArtWidth lineArtHeight : ℚ)
    (mask : ℕ → ℕ → ℕ) (o : OverlayRaster) : OverlayRaster :=
  ⟨o.width, o.height,
    applyEraserData
      (mkEraserParams canvasWidth canvasHeight
        lineArtTop lineArtLeft lineArtWidth lineArtHeight o)
      mask o.data⟩

/-! ### The claim C1 formulas, written as in the specification -/

/-- Code: `trueWidth = scaleHeight × (nativeWidth/nativeHeight)` (the claim's name
for `actualLineArtWidth`, with `scaleHeight = lineArtHeight`). -/
def trueWidth (p : EraserParams) : ℚ :=
  p.lineArtHeight * ((p.originalWidth : ℚ) / (p.originalHeight : ℚ))

/-- Code: `correctedLeft = left + (width - trueWidth)/2`. -/
def correctedLeft (p : EraserParams) : ℚ :=
  p.lineArtLeft + (p.lineArtWidth - trueWidth p) / 2

/-- Code: `origX = round((cx - correctedLeft) × nativeWidth/trueWidth)`. -/
def specOrigX (p : EraserParams) (cx : ℕ) : ℤ :=
  round (((cx : ℚ) - correctedLeft p) * (p.originalWidth : ℚ) / trueWidth p)

/-- Code: `origY = round((cy - top) × nativeHeight/height)`. -/
def specOrigY (p : EraserParams) (cy : ℕ) : ℤ :=
  round (((cy : ℚ) - p.lineArtTop) * (p.originalHeight : ℚ) / p.lineArtHeight)

/-- Source pixel `(x, y)` is reached as the claim describes it: some canvas
pixel passes the mask threshold, lies inside the corrected rectangle
`[correctedLeft, correctedLeft + trueWidth) × [top, top + height)`, and maps
to `(x, y)` within native bounds. -/
def specErased (p : EraserParams) (mask : ℕ → ℕ → ℕ) (x y : ℕ) : Prop :=
  ∃ cx < p.canvasWidth, ∃ cy < p.canvasHeight,
    50 ≤ mask cx cy ∧
    correctedLeft p ≤ (cx : ℚ) ∧ (cx : ℚ) < correctedLeft p + trueWidth p ∧
    p.lineArtTop ≤ (cy : ℚ) ∧ (cy : ℚ) < p.lineArtTop + p.lineArtHeight ∧
    0 ≤ specOrigX p cx ∧ specOrigX p cx < (p.originalWidth : ℤ) ∧
    0 ≤ specOrigY p cy ∧ specOrigY p cy < (p.originalHeight : ℤ) ∧
    (x : ℤ) = specOrigX p cx ∧ (y : ℤ) = specOrigY p cy

instance (p : EraserParams) (mask : ℕ → ℕ → ℕ) (x y : ℕ) :
    Decidable (specErased p mask x y) := by
  unfold specErased
  infer_instance

lemma trueWidth_eq (p : EraserParams) : trueWidth p = actualLineArtWidth p := rfl

lemma correctedLeft_eq (p : EraserParams) :
    correctedLeft p = actualLineArtLeft p := rfl

lemma specOrigX_eq (p : EraserParams) (cx : ℕ) : specOrigX p cx = origX p cx := by
  unfold specOrigX origX relativeX scaleX correctedLeft actualLineArtLeft
    widthDifference trueWidth actualLineArtWidth actualLineArtAspect
  rw [mul_div_assoc]

lemma specOrigY_eq (p : EraserParams) (cy : ℕ) : specOrigY p cy = origY p cy := by
  unfold specOrigY origY relativeY scaleY
  rw [mul_div_assoc]

lemma specErased_iff (p : EraserParams) (mask : ℕ → ℕ → ℕ) (x y : ℕ) :
    specErased p mask x y ↔ erased p mask x y := by
  unfold specErased erased eraseCond inPlacementRect inNativeBounds
  refine exists_congr fun cx => and_congr_right fun _ => ?_
  refine exists_congr fun cy => and_congr_right fun _ => ?_
  rw [specOrigX_eq, specOrigY_eq, correctedLeft_eq, trueWidth_eq]
  constructor
  · rintro ⟨h1, h2, h3, h4, h5, h6, h7, h8, h9, h10, h11⟩
    exact ⟨⟨h1, ⟨sub_nonneg.mpr h2, sub_lt_iff_lt_add'.mpr h3,
      sub_nonneg.mpr h4, sub_lt_iff_lt_add'.mpr h5⟩, h6, h7, h8, h9⟩, h10, h11⟩
  · rintro ⟨⟨h1, ⟨h2, h3, h4, h5⟩, h6, h7, h8, h9⟩, h10, h11⟩
    exact ⟨h1, sub_nonneg.mp h2, sub_lt_iff_lt_add'.mp h3,
      sub_nonneg.mp h4, sub_lt_iff_lt_add'.mp h5, h6, h7, h8, h9, h10, h11⟩

/-- Claim C1: for every apply-eraser request with positive native overlay
dimensions, the engine erases exactly the native pixels described by the
specification's formulas: with `trueWidth = scaleHeight × (nativeWidth /
nativeHeight)` and `correctedLeft = left + (width - trueWidth)/2`, a native
pixel becomes opaque white iff some canvas pixel passing the mask threshold
lies in the corrected rectangle and maps to it via
`origX = round((cx - correctedLeft) × nativeWidth/trueWidth)`,
`origY = round((cy - top) × nativeHeight/height)` within native bounds;
every other native pixel keeps its input value. -/
theorem eraser_pixel_mapping (p : EraserParams) (mask : ℕ → ℕ → ℕ)
    (st : ℕ → ℕ → Pixel) (_hw : 0 < p.originalWidth)
    (_hh : 0 < p.originalHeight) (x y : ℕ) :
    applyEraserData p mask st x y =
      if specErased p mask x y then white else st x y := by
  rw [applyEraserData_eq]
  exact (if_congr (specErased_iff p mask x y) rfl rfl).symm

/-- Concrete eraser parameters for witnesses: a 2×2 canvas, a 2×2 native
overlay placed over the whole canvas. -/
def wEraserParams : EraserParams := ⟨2, 2, 2, 2, 0, 0, 2, 2⟩

/-- A mask that paints only canvas pixel (0,0). -/
def wMask : ℕ → ℕ → ℕ := fun cx cy => if cx = 0 ∧ cy = 0 then 255 else 0

/-- An all-black input overlay grid. -/
def wSt : ℕ → ℕ → Pixel := fun _ _ => ⟨0, 0, 0, 255⟩

/-- Witness for C1 at a concrete input: canvas pixel (0,0) is painted, maps
to native pixel (0,0), which becomes white. -/
theorem eraser_pixel_mapping_witness :
    0 < wEraserParams.originalWidth ∧ 0 < wEraserParams.originalHeight ∧
    applyEraserData wEraserParams wMask wSt 0 0 = white := by
  have h := eraser_pixel_mapping wEraserParams wMask wSt (by decide) (by decide) 0 0
  have hs : specErased wEraserParams wMask 0 0 := by
    refine ⟨0, by decide, 0, by decide, by decide, ?_, ?_, ?_, ?_, ?_, ?_,
        ?_, ?_, ?_, ?_⟩ <;>
      norm_num [wEraserParams, correctedLeft, trueWidth, specOrigX, specOrigY]
  exact ⟨by decide, by decide, h.trans (if_pos hs)⟩

lemma applyEraserData_idem (p : EraserParams) (mask : ℕ → ℕ → ℕ)
    (st : ℕ → ℕ → Pixel) :
    applyEraserData p mask (applyEraserData p mask st) =
      applyEraserData p mask st := by
  funext x y
  rw [applyEraserData_eq, applyEraserData_eq]
  by_cases h : erased p mask x y <;> simp [h]

/-- Claim C3: the eraser pixel engine is idempotent — running the engine on
its own output with the same mask and placement produces the same overlay as
running it once. -/
theorem eraser_idempotent (canvasWidth canvasHeight : ℕ)
    (lineArtTop lineArtLeft lineArtWidth lineArtHeight : ℚ)
    (mask : ℕ → ℕ → ℕ) (o : OverlayRaster) :
    applyEraser canvasWidth canvasHeight
        lineArtTop lineArtLeft lineArtWidth lineArtHeight mask
        (applyEraser canvasWidth canvasHeight
          lineArtTop lineArtLeft lineArtWidth lineArtHeight mask o) =
      applyEraser canvasWidth canvasHeight
        lineArtTop lineArtLeft lineArtWidth lineArtHeight mask o :=
  congrArg (OverlayRaster.mk o.width o.height)
    (applyEraserData_idem
      (mkEraserParams canvasWidth canvasHeight
        lineArtTop lineArtLeft lineArtWidth lineArtHeight o)
      mask o.data)

/-- Claim C4: the eraser mutates pixel values only — output dimensions equal
input dimensions, any native pixel not targeted by a passing mask pixel is
unchanged, and a canvas pixel outside the corrected placement rectangle
never mutates the overlay. -/
theorem eraser_frame_effect (canvasWidth canvasHeight : ℕ)
    (lineArtTop lineArtLeft lineArtWidth lineArtHeight : ℚ)
    (mask : ℕ → ℕ → ℕ) (o : OverlayRaster) :
    (applyEraser canvasWidth canvasHeight
        lineArtTop lineArtLeft lineArtWidth lineArtHeight mask o).width =
      o.width ∧
    (applyEraser canvasWidth canvasHeight
        lineArtTop lineArtLeft lineArtWidth lineArtHeight mask o).height =
      o.height ∧
    (∀ x y,
      ¬ erased (mkEraserParams canvasWidth canvasHeight
          lineArtTop lineArtLeft lineArtWidth lineArtHeight o) mask x y →
      (applyEraser canvasWidth canvasHeight
          lineArtTop lineArtLeft lineArtWidth lineArtHeight mask o).data x y =
        o.data x y) ∧
    (∀ (st : ℕ → ℕ → Pixel) (cx cy : ℕ),
      ¬ inPlacementRect (mkEraserParams canvasWidth canvasHeight
          lineArtTop lineArtLeft lineArtWidth lineArtHeight o) cx cy →
      eraseStep (mkEraserParams canvasWidth canvasHeight
          lineArtTop lineArtLeft lineArtWidth lineArtHeight o) mask st (cx, cy) =
        st) := by
  refine ⟨rfl, rfl, fun x y h => ?_, fun st cx cy h => ?_⟩
  · show applyEraserData _ mask o.data x y = o.data x y
    rw [applyEraserData_eq, if_neg h]
  · exact if_neg fun hc => h hc.2.1

/-- Witness for C4 at a concrete input: with the all-zero mask nothing is
erased, and canvas pixel (0,5) lies below the placement rectangle. -/
theorem eraser_frame_effect_witness :
    (applyEraser 2 2 0 0 2 2 (fun _ _ => 0) ⟨2, 2, wSt⟩).width = 2 ∧
    (applyEraser 2 2 0 0 2 2 (fun _ _ => 0) ⟨2, 2, wSt⟩).data 1 1 = wSt 1 1 ∧
    eraseStep (mkEraserParams 2 2 0 0 2 2 ⟨2, 2, wSt⟩) (fun _ _ => 0) wSt (0, 5) =
      wSt := by
  obtain ⟨h1, _, h3, h4⟩ :=
    eraser_frame_effect 2 2 0 0 2 2 (fun _ _ => 0) (OverlayRaster.mk 2 2 wSt)
  refine ⟨h1, h3 1 1 ?_, h4 wSt 0 5 ?_⟩
  · rintro ⟨cx, _, cy, _, hcond, _⟩
    exact absurd hcond.1 (of_decide_eq_false (by rfl) : ¬ (50 ≤ (0 : ℕ)))
  · intro hrect
    have h5 : relativeY (mkEraserParams 2 2 0 0 2 2 ⟨2, 2, wSt⟩) 5 = 5 := by
      norm_num [relativeY, mkEraserParams]
    have := hrect.2.2.2
    rw [h5] at this
    have hlt : ((2 : ℚ) : ℚ) < 5 := by norm_num
    exact absurd this (by norm_num [mkEraserParams])

/-- Claim C9: a mask with every pixel below the erase threshold leaves the
overlay identical to its input. -/
theorem eraser_blank_mask (canvasWidth canvasHeight : ℕ)
    (lineArtTop lineArtLeft lineArtWidth lineArtHeight : ℚ)
    (mask : ℕ → ℕ → ℕ) (o : OverlayRaster)
    (hblank : ∀ cx cy, mask cx cy < 50) :
    applyEraser canvasWidth canvasHeight
        lineArtTop lineArtLeft lineArtWidth lineArtHeight mask o = o := by
  have hdata : applyEraserData
      (mkEraserParams canvasWidth canvasHeight
        lineArtTop lineArtLeft lineArtWidth lineArtHeight o) mask o.data =
      o.data := by
    funext x y
    rw [applyEraserData_eq, if_neg]
    rintro ⟨cx, _, cy, _, hcond, _⟩
    exact absurd hcond.1 (Nat.not_le.mpr (hblank cx cy))
  cases o with
  | mk ow oh od =>
    exact congrArg (OverlayRaster.mk ow oh) hdata

/-- Witness for C9 at a concrete input: the all-zero mask. -/
theorem eraser_blank_mask_witness :
    applyEraser 2 2 0 0 2 2 (fun _ _ => 0) ⟨2, 2, wSt⟩ = ⟨2, 2, wSt⟩ :=
  eraser_blank_mask 2 2 0 0 2 2 (fun _ _ => 0) ⟨2, 2, wSt⟩
    (fun _ _ => Nat.zero_lt_succ 49)

/-! ### Placement, clipping and preview scaling (composite and export-full
routes) -/

/-- Code: `const lineArtWidth = Math.round(lineArtHeight * (3 / 4))`. -/
def lineArtWidthOf (s : ℤ) : ℤ := round ((s : ℚ) * (3 / 4))

/-- Code: `const lineArtTop = Math.round(lineArtCenterY - lineArtHeight / 2)`. -/
def lineArtTopOf (cy s : ℤ) : ℤ := round ((cy : ℚ) - (s : ℚ) / 2)

/-- Code: `const lineArtLeft = Math.round(lineArtCenterX - lineArtWidth / 2)`. -/
def lineArtLeftOf (cx w : ℤ) : ℤ := round ((cx : ℚ) - (w : ℚ) / 2)

/-- The clipped sub-rectangle of the resized overlay: crop offsets inside
the overlay, paste position inside the canvas, and visible size. -/
structure VisibleRect where
  cropLeft : ℤ
  cropTop : ℤ
  visibleLeft : ℤ
  visibleTop : ℤ
  visibleWidth : ℤ
  visibleHeight : ℤ
deriving DecidableEq, Repr

/-- The clipping computation of the composite and export-full routes:
`cropLeft = max(0, -lineArtLeft)`, `cropTop = max(0, -lineArtTop)`,
`visibleLeft = max(0, lineArtLeft)`, `visibleTop = max(0, lineArtTop)`,
`visibleWidth = min(lineArtWidth - cropLeft, canvasWidth - visibleLeft)`,
`visibleHeight = min(lineArtHeight - cropTop, canvasHeight - visibleTop)`. -/
def computeVisible (left top width height cw ch : ℤ) : VisibleRect where
  cropLeft := max 0 (-left)
  cropTop := max 0 (-top)
  visibleLeft := max 0 left
  visibleTop := max 0 top
  visibleWidth := min (width - max 0 (-left)) (cw - max 0 left)
  visibleHeight := min (height - max 0 (-top)) (ch - max 0 top)

/-- The overlay layer the compositor builds: either the cropped overlay
pasted at the visible position, or an empty transparent canvas-sized
layer. -/
inductive OverlayLayer
  | pasted (v : VisibleRect)
  | empty
deriving DecidableEq, Repr

/-- Code: `if (visibleWidth > 0 && visibleHeight > 0) { extract and paste } else
{ empty transparent layer }`. -/
def processedLineArtLayer (left top width height cw ch : ℤ) : OverlayLayer :=
  if 0 < (computeVisible left top width height cw ch).visibleWidth ∧
      0 < (computeVisible left top width height cw ch).visibleHeight then
    .pasted (computeVisible left top width height cw ch)
  else .empty

/-- Claim C2 (as stated) is false: the computed `visibleWidth` (the claim's
`cropWidth`) can be negative. With `centerX = 6000`, `centerY = 3600`,
`scaleHeight = 400` on the 5400×7200 canvas the overlay sits right of the
canvas and `visibleWidth = min(300 - 0, 5400 - 5850) = -450 < 0`. -/
theorem crop_width_nonneg_cex :
    (computeVisible (lineArtLeftOf 6000 (lineArtWidthOf 400))
        (lineArtTopOf 3600 400) (lineArtWidthOf 400) 400 5400 7200).visibleWidth
      < 0 := by
  have hw : lineArtWidthOf 400 = 300 := by unfold lineArtWidthOf; norm_num
  have hl : lineArtLeftOf 6000 300 = 5850 := by unfold lineArtLeftOf; norm_num
  have ht : lineArtTopOf 3600 400 = 3400 := by unfold lineArtTopOf; norm_num
  rw [hw, hl, ht]
  decide

/-- Claim C2 (amended): for every `centerX, centerY, scaleHeight` and canvas
size, the clipped rectangle may have negative `visibleWidth`/`visibleHeight`,
but whenever both are positive the crop rectangle lies inside the resized
overlay (never reads outside its bounds) and the paste position lies inside
the canvas; when either is non-positive the compositor uses the empty
transparent layer instead of raising an error. -/
theorem clipping_safe (cx cy s cw ch : ℤ) :
    (0 < (computeVisible (lineArtLeftOf cx (lineArtWidthOf s))
          (lineArtTopOf cy s) (lineArtWidthOf s) s cw ch).visibleWidth →
      0 < (computeVisible (lineArtLeftOf cx (lineArtWidthOf s))
          (lineArtTopOf cy s) (lineArtWidthOf s) s cw ch).visibleHeight →
      0 ≤ (computeVisible (lineArtLeftOf cx (lineArtWidthOf s))
          (lineArtTopOf cy s) (lineArtWidthOf s) s cw ch).cropLeft ∧
      0 ≤ (computeVisible (lineArtLeftOf cx (lineArtWidthOf s))
          (lineArtTopOf cy s) (lineArtWidthOf s) s cw ch).cropTop ∧
      (computeVisible (lineArtLeftOf cx (lineArtWidthOf s))
          (lineArtTopOf cy s) (lineArtWidthOf s) s cw ch).cropLeft +
        (computeVisible (lineArtLeftOf cx (lineArtWidthOf s))
          (lineArtTopOf cy s) (lineArtWidthOf s) s cw ch).visibleWidth ≤
        lineArtWidthOf s ∧
      (computeVisible (lineArtLeftOf cx (lineArtWidthOf s))
          (lineArtTopOf cy s) (lineArtWidthOf s) s cw ch).cropTop +
        (computeVisible (lineArtLeftOf cx (lineArtWidthOf s))
          (lineArtTopOf cy s) (lineArtWidthOf s) s cw ch).visibleHeight ≤ s ∧
      0 ≤ (computeVisible (lineArtLeftOf cx (lineArtWidthOf s))
          (lineArtTopOf cy s) (lineArtWidthOf s) s cw ch).visibleLeft ∧
      0 ≤ (computeVisible (lineArtLeftOf cx (lineArtWidthOf s))
          (lineArtTopOf cy s) (lineArtWidthOf s) s cw ch).visibleTop ∧
      (computeVisible (lineArtLeftOf cx (lineArtWidthOf s))
          (lineArtTopOf cy s) (lineArtWidthOf s) s cw ch).visibleLeft +
        (computeVisible (lineArtLeftOf cx (lineArtWidthOf s))
          (lineArtTopOf cy s) (lineArtWidthOf s) s cw ch).visibleWidth ≤ cw ∧
      (computeVisible (lineArtLeftOf cx (lineArtWidthOf s))
          (lineArtTopOf cy s) (lineArtWidthOf s) s cw ch).visibleTop +
        (computeVisible (lineArtLeftOf cx (lineArtWidthOf s))
          (lineArtTopOf cy s) (lineArtWidthOf s) s cw ch).visibleHeight ≤ ch) ∧
    (¬ (0 < (computeVisible (lineArtLeftOf cx (lineArtWidthOf s))
            (lineArtTopOf cy s) (lineArtWidthOf s) s cw ch).visibleWidth ∧
        0 < (computeVisible (lineArtLeftOf cx (lineArtWidthOf s))
            (lineArtTopOf cy s) (lineArtWidthOf s) s cw ch).visibleHeight) →
      processedLineArtLayer (lineArtLeftOf cx (lineArtWidthOf s))
          (lineArtTopOf cy s) (lineArtWidthOf s) s cw ch = .empty) := by
  constructor
  · intro h1 h2
    simp only [computeVisible] at h1 h2 ⊢
    refine ⟨?_, ?_, ?_, ?_, ?_, ?_, ?_, ?_⟩ <;> omega
  · intro h
    rw [processedLineArtLayer, if_neg h]

/-- Witness for C2 at spec Scenario B: `centerX = 2700`, `centerY = 3200`,
`scaleHeight = 7200` on the 5400×7200 canvas. -/
theorem clipping_safe_witness :
    0 < (computeVisible (lineArtLeftOf 2700 (lineArtWidthOf 7200))
        (lineArtTopOf 3200 7200) (lineArtWidthOf 7200) 7200 5400 7200).visibleWidth ∧
    0 ≤ (computeVisible (lineArtLeftOf 2700 (lineArtWidthOf 7200))
        (lineArtTopOf 3200 7200) (lineArtWidthOf 7200) 7200 5400 7200).cropLeft := by
  have hw : lineArtWidthOf 7200 = 5400 := by unfold lineArtWidthOf; norm_num
  have hl : lineArtLeftOf 2700 5400 = 0 := by unfold lineArtLeftOf; norm_num
  have ht : lineArtTopOf 3200 7200 = -400 := by
    unfold lineArtTopOf
    have he : ((3200 : ℤ) : ℚ) - ((7200 : ℤ) : ℚ) / 2 = ((-400 : ℤ) : ℚ) := by
      norm_num
    rw [he, round_intCast]
  have h1 : 0 < (computeVisible (lineArtLeftOf 2700 (lineArtWidthOf 7200))
      (lineArtTopOf 3200 7200) (lineArtWidthOf 7200) 7200 5400 7200).visibleWidth := by
    rw [hw, hl, ht]; decide
  have h2 : 0 < (computeVisible (lineArtLeftOf 2700 (lineArtWidthOf 7200))
      (lineArtTopOf 3200 7200) (lineArtWidthOf 7200) 7200 5400 7200).visibleHeight := by
    rw [hw, hl, ht]; decide
  obtain ⟨hsafe, _⟩ := clipping_safe 2700 3200 7200 5400 7200
  exact ⟨h1, ((hsafe h1 h2).1)⟩

/-! ### Preview mode scaling (composite route) -/

/-- Code: `const scale = preview ? 0.5 : 1`. -/
def scaleFactorOf (preview : Bool) : ℚ := if preview then 1 / 2 else 1

/-- Code: `Math.round(5400 * scale)`. -/
def compositeCanvasWidth (preview : Bool) : ℤ :=
  round ((5400 : ℚ) * scaleFactorOf preview)

/-- Code: `Math.round(7200 * scale)`. -/
def compositeCanvasHeight (preview : Bool) : ℤ :=
  round ((7200 : ℚ) * scaleFactorOf preview)

/-- A `scaledConfig` field: `Math.round(value * scale)`, applied to every
spatial config quantity (centers, scale height, font sizes, text tops,
letter spacings). -/
def scaleVal (preview : Bool) (x : ℤ) : ℤ :=
  round ((x : ℚ) * scaleFactorOf preview)

/-- Overlay height of the layout in the given mode:
`lineArtHeight = scaledConfig.lineArtScale`. -/
def layoutHeight (preview : Bool) (s : ℤ) : ℤ := scaleVal preview s

/-- Overlay width of the layout in the given mode. -/
def layoutWidth (preview : Bool) (s : ℤ) : ℤ :=
  lineArtWidthOf (scaleVal preview s)

/-- Overlay top of the layout in the given mode. -/
def layoutTop (preview : Bool) (cy s : ℤ) : ℤ :=
  lineArtTopOf (scaleVal preview cy) (scaleVal preview s)

/-- Overlay left of the layout in the given mode. -/
def layoutLeft (preview : Bool) (cx s : ℤ) : ℤ :=
  lineArtLeftOf (scaleVal preview cx) (lineArtWidthOf (scaleVal preview s))

lemma roundq_bounds (q : ℚ) :
    q - 1 / 2 < (round q : ℚ) ∧ (round q : ℚ) ≤ q + 1 / 2 := by
  rw [round_eq]
  constructor
  · have := Int.sub_one_lt_floor (q + 1 / 2)
    push_cast at this ⊢
    linarith
  · have := Int.floor_le (q + 1 / 2)
    push_cast at this ⊢
    linarith

lemma scaleVal_false (x : ℤ) : scaleVal false x = x := by
  unfold scaleVal scaleFactorOf
  rw [if_neg Bool.false_ne_true, mul_one, round_intCast]

lemma scaleVal_true (x : ℤ) : scaleVal true x = round ((x : ℚ) * (1 / 2)) := rfl

lemma two_scaleVal_bounds (x : ℤ) :
    x ≤ 2 * scaleVal true x ∧ 2 * scaleVal true x ≤ x + 1 := by
  obtain ⟨hlb, hub⟩ := roundq_bounds ((x : ℚ) * (1 / 2))
  have h1q : (x : ℚ) - 1 < 2 * (scaleVal true x : ℚ) := by
    rw [scaleVal_true]
    linarith
  have h2q : 2 * (scaleVal true x : ℚ) ≤ (x : ℚ) + 1 := by
    rw [scaleVal_true]
    linarith
  have h1 : x - 1 < 2 * scaleVal true x := by exact_mod_cast h1q
  have h2 : 2 * scaleVal true x ≤ x + 1 := by exact_mod_cast h2q
  omega

lemma layoutWidth_bounds (s : ℤ) :
    -2 < 2 * layoutWidth true s - layoutWidth false s ∧
      2 * layoutWidth true s - layoutWidth false s < 3 := by
  obtain ⟨hs1, hs2⟩ := two_scaleVal_bounds s
  have hs1q : (s : ℚ) ≤ 2 * (scaleVal true s : ℚ) := by exact_mod_cast hs1
  have hs2q : 2 * (scaleVal true s : ℚ) ≤ (s : ℚ) + 1 := by exact_mod_cast hs2
  obtain ⟨hP1, hP2⟩ := roundq_bounds ((scaleVal true s : ℚ) * (3 / 4))
  obtain ⟨hF1, hF2⟩ := roundq_bounds ((s : ℚ) * (3 / 4))
  have hlo : (-2 : ℚ) < 2 * (layoutWidth true s : ℚ) - (layoutWidth false s : ℚ) := by
    unfold layoutWidth lineArtWidthOf
    rw [scaleVal_false]
    linarith
  have hhi : 2 * (layoutWidth true s : ℚ) - (layoutWidth false s : ℚ) < 3 := by
    unfold layoutWidth lineArtWidthOf
    rw [scaleVal_false]
    linarith
  exact ⟨by exact_mod_cast hlo, by exact_mod_cast hhi⟩

lemma layoutTop_bounds (cy s : ℤ) :
    -2 < 2 * layoutTop true cy s - layoutTop false cy s ∧
      2 * layoutTop true cy s - layoutTop false cy s < 3 := by
  obtain ⟨hs1, hs2⟩ := two_scaleVal_bounds s
  have hs1q : (s : ℚ) ≤ 2 * (scaleVal true s : ℚ) := by exact_mod_cast hs1
  have hs2q : 2 * (scaleVal true s : ℚ) ≤ (s : ℚ) + 1 := by exact_mod_cast hs2
  obtain ⟨hc1, hc2⟩ := two_scaleVal_bounds cy
  have hc1q : (cy : ℚ) ≤ 2 * (scaleVal true cy : ℚ) := by exact_mod_cast hc1
  have hc2q : 2 * (scaleVal true cy : ℚ) ≤ (cy : ℚ) + 1 := by exact_mod_cast hc2
  obtain ⟨hP1, hP2⟩ :=
    roundq_bounds ((scaleVal true cy : ℚ) - (scaleVal true s : ℚ) / 2)
  obtain ⟨hF1, hF2⟩ := roundq_bounds ((cy : ℚ) - (s : ℚ) / 2)
  have hlo : (-2 : ℚ) <
      2 * (layoutTop true cy s : ℚ) - (layoutTop false cy s : ℚ) := by
    unfold layoutTop lineArtTopOf
    rw [scaleVal_false, scaleVal_false]
    linarith
  have hhi : 2 * (layoutTop true cy s : ℚ) - (layoutTop false cy s : ℚ) < 3 := by
    unfold layoutTop lineArtTopOf
    rw [scaleVal_false, scaleVal_false]
    linarith
  exact ⟨by exact_mod_cast hlo, by exact_mod_cast hhi⟩

lemma layoutLeft_bounds (cx s : ℤ) :
    -3 < 2 * layoutLeft true cx s - layoutLeft false cx s ∧
      2 * layoutLeft true cx s - layoutLeft false cx s < 3 := by
  obtain ⟨hw1, hw2⟩ := layoutWidth_bounds s
  have hw1i : (-1 : ℤ) ≤ 2 * layoutWidth true s - layoutWidth false s := by omega
  have hw2i : 2 * layoutWidth true s - layoutWidth false s ≤ 2 := by omega
  have hw1q : (-1 : ℚ) ≤
      2 * (layoutWidth true s : ℚ) - (layoutWidth false s : ℚ) := by
    exact_mod_cast hw1i
  have hw2q : 2 * (layoutWidth true s : ℚ) - (layoutWidth false s : ℚ) ≤ 2 := by
    exact_mod_cast hw2i
  obtain ⟨hc1, hc2⟩ := two_scaleVal_bounds cx
  have hc1q : (cx : ℚ) ≤ 2 * (scaleVal true cx : ℚ) := by exact_mod_cast hc1
  have hc2q : 2 * (scaleVal true cx : ℚ) ≤ (cx : ℚ) + 1 := by exact_mod_cast hc2
  obtain ⟨hP1, hP2⟩ :=
    roundq_bounds ((scaleVal true cx : ℚ) - (layoutWidth true s : ℚ) / 2)
  obtain ⟨hF1, hF2⟩ := roundq_bounds ((cx : ℚ) - (layoutWidth false s : ℚ) / 2)
  have hleq : ∀ pv : Bool, layoutLeft pv cx s =
      round ((scaleVal pv cx : ℚ) - (layoutWidth pv s : ℚ) / 2) := fun _ => rfl
  have hlo : (-3 : ℚ) <
      2 * (layoutLeft true cx s : ℚ) - (layoutLeft false cx s : ℚ) := by
    rw [hleq true, hleq false, scaleVal_false]
    linarith
  have hhi : 2 * (layoutLeft true cx s : ℚ) - (layoutLeft false cx s : ℚ) < 3 := by
    rw [hleq true, hleq false, scaleVal_false]
    linarith
  exact ⟨by exact_mod_cast hlo, by exact_mod_cast hhi⟩

/-- Claim C5: preview mode scales the canvas and every spatial config
quantity by the fixed factor one-half (`Math.round(x * 0.5)`), and the
preview layer layout, upscaled by 2, matches the full-mode layout within
rounding tolerance: height within 1 pixel, width and top within 2 pixels,
left within 2 pixels, every text quantity within 1 pixel, and the relative
top position (as a ratio of canvas height) within 1/3600. -/
theorem preview_half_scale_consistent (cx cy s t : ℤ) :
    compositeCanvasWidth true = 2700 ∧ compositeCanvasHeight true = 3600 ∧
    compositeCanvasWidth false = 5400 ∧ compositeCanvasHeight false = 7200 ∧
    scaleVal false t = t ∧
    scaleVal true t = round ((t : ℚ) * (1 / 2)) ∧
    s ≤ 2 * layoutHeight true s ∧ 2 * layoutHeight true s ≤ s + 1 ∧
    |2 * layoutWidth true s - layoutWidth false s| ≤ 2 ∧
    |2 * layoutTop true cy s - layoutTop false cy s| ≤ 2 ∧
    |2 * layoutLeft true cx s - layoutLeft false cx s| ≤ 2 ∧
    |2 * scaleVal true t - t| ≤ 1 ∧
    |(layoutTop true cy s : ℚ) / 3600 - (layoutTop false cy s : ℚ) / 7200| ≤
      1 / 3600 := by
  have hcw : compositeCanvasWidth true = 2700 := by
    unfold compositeCanvasWidth scaleFactorOf
    norm_num
  have hch : compositeCanvasHeight true = 3600 := by
    unfold compositeCanvasHeight scaleFactorOf
    norm_num
  have hcwf : compositeCanvasWidth false = 5400 := by
    unfold compositeCanvasWidth scaleFactorOf
    norm_num
  have hchf : compositeCanvasHeight false = 7200 := by
    unfold compositeCanvasHeight scaleFactorOf
    norm_num
  obtain ⟨hh1, hh2⟩ := two_scaleVal_bounds s
  obtain ⟨hwl, hwh⟩ := layoutWidth_bounds s
  obtain ⟨htl, hth⟩ := layoutTop_bounds cy s
  obtain ⟨hll, hlh⟩ := layoutLeft_bounds cx s
  obtain ⟨ht1, ht2⟩ := two_scaleVal_bounds t
  have htop : |2 * layoutTop true cy s - layoutTop false cy s| ≤ 2 := by
    rw [abs_le]
    omega
  have hrel :
      |(layoutTop true cy s : ℚ) / 3600 - (layoutTop false cy s : ℚ) / 7200| ≤
        1 / 3600 := by
    obtain ⟨ha, hb⟩ := abs_le.mp htop
    have haq : (-2 : ℚ) ≤ 2 * (layoutTop true cy s : ℚ) - (layoutTop false cy s : ℚ) := by
      exact_mod_cast ha
    have hbq : 2 * (layoutTop true cy s : ℚ) - (layoutTop false cy s : ℚ) ≤ 2 := by
      exact_mod_cast hb
    rw [abs_le]
    constructor <;> linarith
  refine ⟨hcw, hch, hcwf, hchf, scaleVal_false t, rfl, hh1, hh2, ?_, htop, ?_,
    ?_, hrel⟩
  · rw [abs_le]; omega
  · rw [abs_le]; omega
  · rw [abs_le]; omega

/-! ### Size and bleed lookup tables, export finalizer (export and
export-full routes) -/

/-- The `SIZE_DIMENSIONS` record: print dimensions at 300 DPI per size
label. -/
def sizeDimensions (s : String) : Option (ℤ × ℤ) :=
  if s = "30x40" then some (9000, 12000)
  else if s = "24x36" then some (7200, 10800)
  else if s = "24x32" then some (7200, 9600)
  else if s = "20x30" then some (6000, 9000)
  else if s = "18x24" then some (5400, 7200)
  else if s = "16x24" then some (4800, 7200)
  else if s = "12x16" then some (3600, 4800)
  else if s = "9x12" then some (2700, 3600)
  else none

/-- The `BLEED_SIZES` record: bleed width in pixels per bleed code. -/
def bleedSizes (s : String) : Option ℤ :=
  if s = "none" then some 0
  else if s = "450px" then some 450
  else if s = "20px" then some 20
  else none

/-- Code: `const targetSize = SIZE_DIMENSIONS[size] || SIZE_DIMENSIONS['18x24']`. -/
def exportTargetSize (size : String) : ℤ × ℤ :=
  (sizeDimensions size).getD (5400, 7200)

/-- Code: `const bleedPx = BLEED_SIZES[bleed] || 0`. -/
def exportBleedPx (bleed : String) : ℤ :=
  (bleedSizes bleed).getD 0

/-- Final output dimensions: resize to the target, then, when `bleedPx > 0`,
pad `bleedPx` on each side (`finalWidth = targetSize.width + bleedPx * 2`,
same for height); otherwise exactly the target. -/
def exportFinalDims (size bleed : String) : ℤ × ℤ :=
  if 0 < exportBleedPx bleed then
    ((exportTargetSize size).1 + exportBleedPx bleed * 2,
      (exportTargetSize size).2 + exportBleedPx bleed * 2)
  else exportTargetSize size

/-- One RGB pixel (the bleed canvas is created with 3 channels). -/
structure RGB where
  r : ℕ
  g : ℕ
  b : ℕ
deriving DecidableEq, Repr

/-- The white background of the bleed canvas. -/
def whiteRGB : RGB := ⟨255, 255, 255⟩

/-- The padded raster: the resized image composited at offset
`(bleedPx, bleedPx)` over a white `finalWidth × finalHeight` canvas. -/
def paddedPixel (inner : ℤ → ℤ → RGB) (tw th bp x y : ℤ) : RGB :=
  if bp ≤ x ∧ x < bp + tw ∧ bp ≤ y ∧ y < bp + th then
    inner (x - bp) (y - bp)
  else whiteRGB

/-- Claim C6: for every bleed code in the lookup table the final raster is
`targetWidth + 2×bleedPx` by `targetHeight + 2×bleedPx`; every pixel outside
the centered target rectangle (a uniform border of width `bleedPx`) is
white; `bleedPx = 0` skips padding and returns exactly the target size; and
bleed code "450px" with size label "30x40" yields 9900 × 12900. -/
theorem export_bleed_dims (bleed : String) (bp : ℤ)
    (hb : bleedSizes bleed = some bp) (size : String) :
    (exportFinalDims size bleed).1 = (exportTargetSize size).1 + 2 * bp ∧
    (exportFinalDims size bleed).2 = (exportTargetSize size).2 + 2 * bp ∧
    (bp = 0 → exportFinalDims size bleed = exportTargetSize size) ∧
    (∀ (inner : ℤ → ℤ → RGB) (tw th x y : ℤ), 0 < bp →
      x < bp ∨ bp + tw ≤ x ∨ y < bp ∨ bp + th ≤ y →
      paddedPixel inner tw th bp x y = whiteRGB) ∧
    exportFinalDims "30x40" "450px" = (9900, 12900) := by
  have hpad : ∀ (inner : ℤ → ℤ → RGB) (tw th x y : ℤ), 0 < bp →
      x < bp ∨ bp + tw ≤ x ∨ y < bp ∨ bp + th ≤ y →
      paddedPixel inner tw th bp x y = whiteRGB := by
    intro inner tw th x y _ hout
    rw [paddedPixel, if_neg]
    rintro ⟨hx1, hx2, hy1, hy2⟩
    omega
  have hpx : exportBleedPx bleed = bp := by
    rw [exportBleedPx, hb]
    rfl
  have hscen : exportFinalDims "30x40" "450px" = (9900, 12900) := by decide
  unfold bleedSizes at hb
  split_ifs at hb <;> injection hb with hbp <;> subst hbp
  · rw [exportFinalDims, hpx, if_neg (lt_irrefl 0)]
    exact ⟨by omega, by omega, fun _ => rfl, hpad, hscen⟩
  · rw [exportFinalDims, hpx, if_pos (by norm_num : (0:ℤ) < 450)]
    exact ⟨by omega, by omega, fun h => absurd h (by norm_num), hpad, hscen⟩
  · rw [exportFinalDims, hpx, if_pos (by norm_num : (0:ℤ) < 20)]
    exact ⟨by omega, by omega, fun h => absurd h (by norm_num), hpad, hscen⟩

/-- Witness for C6 at the concrete spec scenario. -/
theorem export_bleed_dims_witness :
    bleedSizes "450px" = some 450 ∧
    (exportFinalDims "30x40" "450px").1 = (exportTargetSize "30x40").1 + 2 * 450 ∧
    exportFinalDims "30x40" "450px" = (9900, 12900) := by
  obtain ⟨h1, _, _, _, h5⟩ := export_bleed_dims "450px" 450 (by decide) "30x40"
  exact ⟨by decide, h1, h5⟩

/-! ### Canvas lookup table (`src/types/index.ts`) and canvas sizes used by
the routes -/

/-- The `ImageSize` union of supported size labels. -/
inductive ImageSize
  | s30x40 | s24x36 | s24x32 | s20x30 | s18x24 | s16x24 | s12x16 | s9x12
deriving DecidableEq, Repr

/-- The two aspect classes `"3:4" | "2:3"`. -/
inductive AspectKind
  | a3x4 | a2x3
deriving DecidableEq, Repr

/-- The `SIZE_ASPECT_RATIO` record. -/
def sizeAspect : ImageSize → AspectKind
  | .s30x40 => .a3x4
  | .s24x36 => .a2x3
  | .s24x32 => .a3x4
  | .s20x30 => .a2x3
  | .s18x24 => .a3x4
  | .s16x24 => .a2x3
  | .s12x16 => .a3x4
  | .s9x12 => .a3x4

/-- The `CANVAS_DIMENSIONS` record: compositing canvas per aspect class. -/
def canvasDimensionsFor : AspectKind → ℤ × ℤ
  | .a3x4 => (5400, 7200)
  | .a2x3 => (5400, 8100)

/-- The `SIZE_PIXELS` record: print dimensions at 300 DPI. -/
def sizePixels : ImageSize → ℤ × ℤ
  | .s30x40 => (9000, 12000)
  | .s24x36 => (7200, 10800)
  | .s24x32 => (7200, 9600)
  | .s20x30 => (6000, 9000)
  | .s18x24 => (5400, 7200)
  | .s16x24 => (4800, 7200)
  | .s12x16 => (3600, 4800)
  | .s9x12 => (2700, 3600)

/-- The wire string of each size label. -/
def sizeLabel : ImageSize → String
  | .s30x40 => "30x40"
  | .s24x36 => "24x36"
  | .s24x32 => "24x32"
  | .s20x30 => "20x30"
  | .s18x24 => "18x24"
  | .s16x24 => "16x24"
  | .s12x16 => "12x16"
  | .s9x12 => "9x12"

/-- Code: `getCanvasDimensions`: canvas dimensions plus aspect for a size label. -/
structure CanvasSpec where
  width : ℤ
  height : ℤ
  aspect : AspectKind
deriving DecidableEq, Repr

/-- Code: `getCanvasDimensions(size)` from `src/types/index.ts`. -/
def getCanvasDimensions (s : ImageSize) : CanvasSpec :=
  ⟨(canvasDimensionsFor (sizeAspect s)).1,
    (canvasDimensionsFor (sizeAspect s)).2, sizeAspect s⟩

/-- The canvas the composite route renders on (it receives no size label):
`Math.round(5400 * scale)` by `Math.round(7200 * scale)`. -/
def compositeCanvasDims (preview : Bool) : ℤ × ℤ :=
  (compositeCanvasWidth preview, compositeCanvasHeight preview)

/-- The canvas the export-full route renders on:
`getCanvasDimensions(imageSize)`. -/
def exportFullCanvasDims (s : ImageSize) : ℤ × ℤ :=
  ((getCanvasDimensions s).width, (getCanvasDimensions s).height)

lemma compositeCanvasDims_false : compositeCanvasDims false = (5400, 7200) := by
  unfold compositeCanvasDims compositeCanvasWidth compositeCanvasHeight
    scaleFactorOf
  norm_num

/-- Claim C7 (as stated) is false: the composite route always renders on the
fixed 5400×7200 canvas (it receives no size label), so for the supported 2:3
label "24x36", whose looked-up CanvasSpec is 5400×8100, the composited
canvas does not equal the lookup. -/
theorem composite_canvas_lookup_cex :
    compositeCanvasDims false ≠ exportFullCanvasDims ImageSize.s24x36 := by
  rw [compositeCanvasDims_false]
  decide

/-- Claim C7 (amended): for every supported size label, the export-full
route's canvas exactly equals the looked-up CanvasSpec of the label's aspect
class (5400×7200 for 3:4, 5400×8100 for 2:3) and the exported image exactly
equals the looked-up target print dimensions (plus bleed), with no
off-by-one; the composite route's full-mode canvas is always the fixed
5400×7200, which matches the lookup exactly for the 3:4 labels. -/
theorem canvas_export_dims_exact (s : ImageSize) :
    exportFullCanvasDims s = canvasDimensionsFor (sizeAspect s) ∧
    sizeDimensions (sizeLabel s) = some (sizePixels s) ∧
    exportTargetSize (sizeLabel s) = sizePixels s ∧
    exportFinalDims (sizeLabel s) "none" = sizePixels s ∧
    (sizeAspect s = .a3x4 ↔ compositeCanvasDims false = exportFullCanvasDims s) := by
  rw [compositeCanvasDims_false]
  cases s <;> exact ⟨rfl, by decide, by decide, by decide, by decide⟩

/-- JavaScript `toUpperCase`, ASCII-letter fragment, over code points:
lowercase a–z map to A–Z, everything else is unchanged. -/
def jsCharToUpper (c : ℕ) : ℕ := if 97 ≤ c ∧ c ≤ 122 then c - 32 else c

/-- A code point is an ASCII lowercase letter. -/
def isLowerCode (c : ℕ) : Prop := 97 ≤ c ∧ c ≤ 122

/-- The glyphs the composite and export-full routes draw for the title:
`if (title) { ctx.fillText(title.toUpperCase(), ...) }` — the empty string
is falsy and draws no layer. -/
def renderedTitle (title : List ℕ) : Option (List ℕ) :=
  if title = [] then none else some (title.map jsCharToUpper)

/-- The glyphs drawn for the date: `if (date) { ctx.fillText(date, ...) }` —
drawn verbatim when non-empty. -/
def renderedDate (date : List ℕ) : Option (List ℕ) :=
  if date = [] then none else some date

/-- Claim C10: for every non-empty title, the drawn title text is the title
converted to uppercase — it never contains a lowercase letter even when the
request's title does — while the date text is drawn verbatim. -/
theorem title_drawn_uppercase (title date : List ℕ)
    (ht : title ≠ []) (hd : date ≠ []) :
    renderedTitle title = some (title.map jsCharToUpper) ∧
    renderedDate date = some date ∧
    ∀ c ∈ title.map jsCharToUpper, ¬ isLowerCode c := by
  refine ⟨if_neg ht, if_neg hd, ?_⟩
  intro c hc
  obtain ⟨c0, _, rfl⟩ := List.mem_map.mp hc
  rw [jsCharToUpper, isLowerCode]
  split_ifs with h <;> omega

/-- Witness for C10: title "aB" (code points 97, 66) is drawn as "AB"
(65, 66); date "2" (50) is drawn verbatim. -/
theorem title_drawn_uppercase_witness :
    renderedTitle [97, 66] = some [65, 66] ∧
    renderedDate [50] = some [50] ∧
    ¬ isLowerCode 65 := by
  obtain ⟨h1, h2, h3⟩ :=
    title_drawn_uppercase [97, 66] [50] (by decide) (by decide)
  refine ⟨?_, h2, h3 65 (by decide)⟩
  rw [h1]
  decide

end LineArt
